import Mathlib

/-!
Shallow embedding of the ink! raffle contract (src/raffle/lib.rs).

The contract state is a record threaded explicitly through each entry-point
call.  The host environment supplies, per call, the transferred balance, the
block timestamp, the 32-bit value obtained from the randomness beacon, and the
success of a requested balance transfer; these appear as extra arguments.
Observable external effects (event emissions and `Ledger.transfer`
invocations) are returned as an ordered action list.  A Rust panic or trap
(checked `u128` overflow, `u64` subtraction underflow, `u32` modulo by zero,
`Option::unwrap` on `None`) aborts the whole call with every write reverted by
the host; such a call is modelled as `none`.
-/

/-- Account identifiers are opaque equality-comparable tokens; modelled as Nat. -/
abbrev AccountId := Nat

/-- const DEPOSIT_MIN: u128 = 10_000_000_000_000. -/
def DEPOSIT_MIN : Nat := 10000000000000

/-- const DEPOSIT_MAX: u128 = 100_000_000_000_000. -/
def DEPOSIT_MAX : Nat := 100000000000000

/-- const RAFFLE_TRIGGER: u32 = 5. -/
def RAFFLE_TRIGGER : Nat := 5

/-- const RAFFLE_WINNERS: u8 = 2. -/
def RAFFLE_WINNERS : Nat := 2

/-- const DURATION_IN_MS: u64 = 5. -/
def DURATION_IN_MS : Nat := 5

/-- Modulus of the u128 balance type. -/
def U128_MOD : Nat := 2 ^ 128

/-- The Raffle error enum from the source (the TooFewParticpants spelling is
the source code spelling). -/
inductive Error where
  | EndowmentOutOfLimits
  | AlreadyParticipating
  | RaffleFinished
  | TransferError
  | TooFewParticpants
  | RaffleStillOpen
  deriving DecidableEq, Repr

/-- Events emitted by the contract, with the field payloads of the source. -/
inductive Event where
  | NewParticipant (participant : Option AccountId) (value : Nat)
  | RaffleWinner (winner : Option AccountId) (index : Nat)
  | RaffleOpen (time_remaining : Nat)
  deriving DecidableEq, Repr

/-- One observable external effect of a call, in order of occurrence:
an event emission or an invocation of env.transfer (dest, amount). -/
inductive Act where
  | emit (e : Event)
  | transfer (dest : AccountId) (amount : Nat)
  deriving DecidableEq, Repr

/-- The storage struct of the Raffle contract.  winner_list is the fixed
array [Option<AccountId>; RAFFLE_WINNERS]; winners and start_time are the
u8 and u64 fields. -/
structure Raffle where
  pot_receiver : AccountId
  total_balance : Nat
  enough_participants : Bool
  winners : Nat
  participant_list : List AccountId
  winner_list : List (Option AccountId)
  start_time : Nat
  deriving DecidableEq, Repr

/-- Result of one entry-point call: the post state, the ordered list of
external effects, and the returned Result<(), Error>. -/
abbrev StepResult := Raffle × List Act × Except Error Unit

namespace Raffle

/-- The constructor new(pot_receiver). -/
def new (pot_receiver : AccountId) : Raffle :=
  { pot_receiver := pot_receiver
    total_balance := 0
    enough_participants := false
    winners := 0
    participant_list := []
    winner_list := [none, none]
    start_time := 0 }

/-- Linear scan of participant_list for the account. -/
def is_participating (s : Raffle) (account : AccountId) : Bool :=
  s.participant_list.contains account

/-- participate(participant) with transferred balance value and block
timestamp now.  The checked u128 addition total_balance + value traps on
overflow (ink builds with overflow checks), reverting the call: modelled as
none.  In the source the list push precedes the balance addition, but a trap
reverts both, so checking overflow first is equivalent at the call boundary. -/
def participate (s : Raffle) (participant : AccountId) (value : Nat) (now : Nat) :
    Option StepResult :=
  if value < DEPOSIT_MIN ∨ value > DEPOSIT_MAX then
    some (s, [], Except.error Error.EndowmentOutOfLimits)
  else if s.winners = RAFFLE_WINNERS then
    some (s, [], Except.error Error.RaffleFinished)
  else if s.is_participating participant then
    some (s, [], Except.error Error.AlreadyParticipating)
  else if s.total_balance + value < U128_MOD then
    let s1 : Raffle :=
      { s with participant_list := s.participant_list ++ [participant]
               total_balance := s.total_balance + value }
    let s2 : Raffle :=
      if s1.participant_list.length = RAFFLE_TRIGGER then
        { s1 with enough_participants := true, start_time := now }
      else s1
    some (s2, [Act.emit (Event.NewParticipant (some participant) value)],
          Except.ok ())
  else
    none

/-- countdown_ongoing at block timestamp now.  The u64 subtraction
block_timestamp - start_time traps on underflow (modelled as none); the
RaffleOpen event carries time_diff, exactly as the source writes it. -/
def countdown_ongoing (s : Raffle) (now : Nat) : Option (Bool × List Act) :=
  if now < s.start_time then
    none
  else
    let time_diff := now - s.start_time
    if time_diff < DURATION_IN_MS then
      some (true, [Act.emit (Event.RaffleOpen time_diff)])
    else
      some (false, [])

/-- transfer_pot: invokes env.transfer(pot_receiver, total_balance); the
host reports success through transfer_ok. -/
def transfer_pot (s : Raffle) (transfer_ok : Bool) : Bool × List Act :=
  (transfer_ok, [Act.transfer s.pot_receiver s.total_balance])

/-- get_random_index with the beacon value r (get_random_number output):
r % participant_list.len(); u32 remainder by zero traps (none). -/
def get_random_index (s : Raffle) (r : Nat) : Option Nat :=
  if s.participant_list.length = 0 then none
  else some (r % s.participant_list.length)

/-- as_u32_be: first four bytes big-endian; indexing a shorter slice traps. -/
def as_u32_be (arr : List Nat) : Option Nat :=
  match arr.get? 0, arr.get? 1, arr.get? 2, arr.get? 3 with
  | some a, some b, some c, some d =>
      some ((a <<< 24) + (b <<< 16) + (c <<< 8) + d)
  | _, _, _, _ => none

/-- draw_winner at block timestamp now, with beacon value r and transfer
outcome transfer_ok.  Mirrors the source order: guards, random index,
participant_list.get(i).unwrap(), winner_list write, winners increment,
conditional transfer_pot, and only then the RaffleWinner emission.  A failed
transfer returns Err(TransferError) with the winner writes already committed
(ink 3.x does not revert state on an Err return). -/
def draw_winner (s : Raffle) (now : Nat) (r : Nat) (transfer_ok : Bool) :
    Option StepResult :=
  if s.winners = RAFFLE_WINNERS then
    some (s, [], Except.error Error.RaffleFinished)
  else if s.enough_participants = false then
    some (s, [], Except.error Error.TooFewParticpants)
  else
    match s.countdown_ongoing now with
    | none => none
    | some (true, acts) => some (s, acts, Except.error Error.RaffleStillOpen)
    | some (false, acts) =>
      match s.get_random_index r with
      | none => none
      | some winner_index =>
        match s.participant_list.get? winner_index with
        | none => none
        | some winner =>
          let s1 : Raffle :=
            { s with winner_list := s.winner_list.set s.winners (some winner)
                     winners := s.winners + 1 }
          if s1.winners = RAFFLE_WINNERS then
            let tp := s1.transfer_pot transfer_ok
            if tp.1 = false then
              some (s1, acts ++ tp.2, Except.error Error.TransferError)
            else
              some (s1, acts ++ tp.2 ++
                      [Act.emit (Event.RaffleWinner (some winner) winner_index)],
                    Except.ok ())
          else
            some (s1, acts ++
                    [Act.emit (Event.RaffleWinner (some winner) winner_index)],
                  Except.ok ())

/-- Query participants(): number of registered participants. -/
def participants (s : Raffle) : Nat :=
  s.participant_list.length

/-- Query winner_address(): the winner slots. -/
def winner_address (s : Raffle) : List (Option AccountId) :=
  s.winner_list

/-- Query finished(): winners == RAFFLE_WINNERS. -/
def finished (s : Raffle) : Bool :=
  s.winners = RAFFLE_WINNERS

end Raffle

/-- One host-delivered call together with its per-call environment inputs. -/
inductive Call where
  | participate (participant : AccountId) (value : Nat) (now : Nat)
  | draw (now : Nat) (r : Nat) (transfer_ok : Bool)
  deriving DecidableEq, Repr

/-- Dispatch one call on the state. -/
def stepCall (s : Raffle) : Call → Option StepResult
  | Call.participate p v now => s.participate p v now
  | Call.draw now r tok => s.draw_winner now r tok

/-- Run a trace of calls from a state, collecting per-step effects and
results; none if any call traps. -/
def runTrace (s : Raffle) : List Call → Option (Raffle × List (List Act × Except Error Unit))
  | [] => some (s, [])
  | c :: cs =>
    match stepCall s c with
    | none => none
    | some (s1, acts, res) =>
      match runTrace s1 cs with
      | none => none
      | some (sf, hist) => some (sf, (acts, res) :: hist)

/-- States reachable from the constructor by participate and draw_winner
calls (trapping calls produce no state). -/
inductive Reachable : Raffle → Prop where
  | init (pr : AccountId) : Reachable (Raffle.new pr)
  | step {s : Raffle} {c : Call} {s1 : Raffle} {acts : List Act}
      {res : Except Error Unit} :
      Reachable s → stepCall s c = some (s1, acts, res) → Reachable s1

/-- Deposit accepted by one step: the transferred value of a participate
call that returned Ok, else 0. -/
def depositOf : Call × (List Act × Except Error Unit) → Nat
  | (Call.participate _ v _, (_, Except.ok _)) => v
  | _ => 0

/-- Sum of all deposits accepted by successful participate calls of a trace. -/
def acceptedDeposits (cs : List Call) (hs : List (List Act × Except Error Unit)) : Nat :=
  ((cs.zip hs).map depositOf).sum

/-- Whether a step is a draw_winner call that returned Ok. -/
def isOkDraw : Call × (List Act × Except Error Unit) → Bool
  | (Call.draw _ _ _, (_, Except.ok _)) => true
  | _ => false

/-- Number of successful draw_winner calls in a trace. -/
def okDraws (cs : List Call) (hs : List (List Act × Except Error Unit)) : Nat :=
  (cs.zip hs).countP isOkDraw

/-- Whether a step returned Err(TransferError). -/
def isTrErr (h : List Act × Except Error Unit) : Bool :=
  match h.2 with
  | Except.error Error.TransferError => true
  | _ => false

/-- Number of steps of a trace that returned Err(TransferError). -/
def trErrSteps (hs : List (List Act × Except Error Unit)) : Nat :=
  hs.countP isTrErr

/-- All external effects of a trace, in order. -/
def actionsOf (hs : List (List Act × Except Error Unit)) : List Act :=
  (hs.map Prod.fst).flatten

/-- The Ledger.transfer invocations among a list of actions, in order. -/
def transfersOf (l : List Act) : List (AccountId × Nat) :=
  l.filterMap fun a =>
    match a with
    | Act.transfer d amt => some (d, amt)
    | _ => none

/-- A concrete trace: five distinct participants each depositing DEPOSIT_MIN,
the fifth at block timestamp 10 (which arms the draw). -/
def trace5 : List Call :=
  [Call.participate 1 DEPOSIT_MIN 0, Call.participate 2 DEPOSIT_MIN 0,
   Call.participate 3 DEPOSIT_MIN 0, Call.participate 4 DEPOSIT_MIN 0,
   Call.participate 5 DEPOSIT_MIN 10]

/-- The state reached by trace5. -/
def s5 : Raffle :=
  { pot_receiver := 0
    total_balance := 50000000000000
    enough_participants := true
    winners := 0
    participant_list := [1, 2, 3, 4, 5]
    winner_list := [none, none]
    start_time := 10 }

/-- The per-step effects of trace5. -/
def hist5 : List (List Act × Except Error Unit) :=
  [([Act.emit (Event.NewParticipant (some 1) DEPOSIT_MIN)], Except.ok ()),
   ([Act.emit (Event.NewParticipant (some 2) DEPOSIT_MIN)], Except.ok ()),
   ([Act.emit (Event.NewParticipant (some 3) DEPOSIT_MIN)], Except.ok ()),
   ([Act.emit (Event.NewParticipant (some 4) DEPOSIT_MIN)], Except.ok ()),
   ([Act.emit (Event.NewParticipant (some 5) DEPOSIT_MIN)], Except.ok ())]

/-- trace5 followed by one successful draw at timestamp 15 with beacon value 0. -/
def trace6 : List Call := trace5 ++ [Call.draw 15 0 true]

/-- The state reached by trace6: participant 1 recorded in the first winner slot. -/
def s6 : Raffle :=
  { s5 with winners := 1, winner_list := [some 1, none] }

/-- The per-step effects of trace6. -/
def hist6 : List (List Act × Except Error Unit) :=
  hist5 ++ [([Act.emit (Event.RaffleWinner (some 1) 0)], Except.ok ())]

/-- trace6 followed by the second successful draw (beacon value 1), which
completes the raffle and pays out the pot. -/
def trace7 : List Call := trace6 ++ [Call.draw 15 1 true]

/-- The state reached by trace7: the raffle is finished. -/
def s7 : Raffle :=
  { s5 with winners := 2, winner_list := [some 1, some 2] }

/-- The per-step effects of trace7; the final step invokes the transfer and
then emits the RaffleWinner event. -/
def hist7 : List (List Act × Except Error Unit) :=
  hist6 ++ [([Act.transfer 0 50000000000000,
              Act.emit (Event.RaffleWinner (some 2) 1)], Except.ok ())]

theorem trace5_run : runTrace (Raffle.new 0) trace5 = some (s5, hist5) := by
  rfl

theorem trace6_run : runTrace (Raffle.new 0) trace6 = some (s6, hist6) := by
  rfl

theorem trace7_run : runTrace (Raffle.new 0) trace7 = some (s7, hist7) := by
  rfl

/-- C1 counterexample: at the boundary deposit d = DEPOSIT_MIN, participate
succeeds (the source tests only `value < DEPOSIT_MIN || value > DEPOSIT_MAX`)
and total_balance changes from 0 to DEPOSIT_MIN, refuting the claim that
d = DEPOSIT_MIN is rejected with EndowmentOutOfLimits and the balance
unchanged. -/
theorem C1_boundary_cex :
    (Raffle.new 0).participate 1 DEPOSIT_MIN 0 =
      some ({ pot_receiver := 0, total_balance := DEPOSIT_MIN,
              enough_participants := false, winners := 0,
              participant_list := [1], winner_list := [none, none],
              start_time := 0 },
            [Act.emit (Event.NewParticipant (some 1) DEPOSIT_MIN)],
            Except.ok ()) ∧
    DEPOSIT_MIN ≠ 0 :=
  ⟨rfl, by decide⟩

/-- C1 (amended): participate fails EndowmentOutOfLimits, leaving the state
unchanged, exactly when the deposit is strictly below DEPOSIT_MIN or strictly
above DEPOSIT_MAX; a deposit within [DEPOSIT_MIN, DEPOSIT_MAX], boundaries
included, is never rejected with EndowmentOutOfLimits. -/
theorem C1_deposit_limits (s : Raffle) (p : AccountId) (v now : Nat) :
    ((v < DEPOSIT_MIN ∨ DEPOSIT_MAX < v) →
      s.participate p v now = some (s, [], Except.error Error.EndowmentOutOfLimits)) ∧
    (DEPOSIT_MIN ≤ v → v ≤ DEPOSIT_MAX → ∀ s1 acts,
      s.participate p v now ≠ some (s1, acts, Except.error Error.EndowmentOutOfLimits)) := by
  constructor
  · intro h
    unfold Raffle.participate
    have hc : v < DEPOSIT_MIN ∨ v > DEPOSIT_MAX := h
    simp [hc]
  · intro h1 h2 s1 acts
    unfold Raffle.participate
    have hc : ¬ (v < DEPOSIT_MIN ∨ v > DEPOSIT_MAX) := by
      push_neg
      exact ⟨h1, h2⟩
    rw [if_neg hc]
    split_ifs <;> simp

/-- C1 witness: a deposit of 0 is rejected with EndowmentOutOfLimits, and a
deposit of exactly DEPOSIT_MIN is not so rejected. -/
theorem C1_deposit_limits_witness :
    (Raffle.new 0).participate 1 0 0 =
      some (Raffle.new 0, [], Except.error Error.EndowmentOutOfLimits) ∧
    (Raffle.new 0).participate 1 DEPOSIT_MIN 0 ≠
      some (Raffle.new 0, [], Except.error Error.EndowmentOutOfLimits) :=
  ⟨(C1_deposit_limits (Raffle.new 0) 1 0 0).1 (Or.inl (by decide)),
   (C1_deposit_limits (Raffle.new 0) 1 DEPOSIT_MIN 0).2 (by decide) (by decide)
     (Raffle.new 0) []⟩

/-- C2 counterexample: from the reachable state s6 (five participants, one
winner drawn), a draw_winner call whose pot transfer fails returns
Err(TransferError) with the state already mutated: winners has advanced from
1 to 2 and the second winner slot is filled, refuting the claim that a
TransferError leaves no state field changed. -/
theorem C2_transfer_error_cex :
    runTrace (Raffle.new 0) trace6 = some (s6, hist6) ∧
    s6.draw_winner 15 1 false =
      some (s7, [Act.transfer 0 50000000000000], Except.error Error.TransferError) ∧
    s7.winners ≠ s6.winners :=
  ⟨rfl, rfl, by decide⟩

/-- C2 (amended): every participate or draw_winner call that returns an error
other than TransferError leaves the prior state completely unchanged; a
draw_winner call returning TransferError commits its winner-slot write and
winners increment before failing. -/
theorem C2_error_atomicity (s : Raffle) (c : Call) (s1 : Raffle)
    (acts : List Act) (e : Error) :
    stepCall s c = some (s1, acts, Except.error e) → e ≠ Error.TransferError →
    s1 = s := by
  intro h hne
  cases c with
  | participate p v now =>
    simp only [stepCall] at h
    unfold Raffle.participate at h
    split at h
    · simp_all
    · split at h
      · simp_all
      · split at h
        · simp_all
        · split at h
          · simp_all
          · simp_all
  | draw now r tok =>
    simp only [stepCall] at h
    unfold Raffle.draw_winner at h
    split at h
    · simp_all
    · split at h
      · simp_all
      · split at h
        · simp_all
        · simp_all
        · split at h
          · simp_all
          · split at h
            · simp_all
            · dsimp only at h
              split at h
              · split at h
                · simp_all
                · simp_all
              · simp_all

/-- C2 witness: a draw on a fresh raffle fails TooFewParticpants and leaves
the state unchanged. -/
theorem C2_error_atomicity_witness :
    stepCall (Raffle.new 0) (Call.draw 0 0 true) =
      some (Raffle.new 0, [], Except.error Error.TooFewParticpants) ∧
    Raffle.new 0 = Raffle.new 0 :=
  ⟨rfl, C2_error_atomicity (Raffle.new 0) (Call.draw 0 0 true) (Raffle.new 0) []
    Error.TooFewParticpants rfl (by decide)⟩

/-- C3 counterexample: on the reachable state s6 the second, completing draw
succeeds and its ordered effect list places the Ledger.transfer invocation
strictly before the RaffleWinner emission, refuting the claim that the
transfer is invoked only after that emission. -/
theorem C3_transfer_order_cex :
    runTrace (Raffle.new 0) trace6 = some (s6, hist6) ∧
    s6.draw_winner 15 1 true =
      some (s7, [Act.transfer 0 50000000000000,
                 Act.emit (Event.RaffleWinner (some 2) 1)], Except.ok ()) ∧
    [Act.transfer 0 50000000000000,
     Act.emit (Event.RaffleWinner (some 2) 1)].head? ≠
      some (Act.emit (Event.RaffleWinner (some 2) 1)) :=
  ⟨rfl, rfl, by decide⟩

/-- C3 (amended): on every successful draw_winner call the winner index is the
beacon value modulo participants.length, participants[index] is written into
the next winner slot, winners is incremented, and RaffleWinner(winner, index)
is emitted; when the increment reaches RAFFLE_WINNERS, the
Ledger.transfer(pot_receiver, total_balance) invocation happens before — not
after — the RaffleWinner emission. -/
theorem C3_draw_success (s : Raffle) (now r : Nat) (tok : Bool)
    (s1 : Raffle) (acts : List Act) :
    s.draw_winner now r tok = some (s1, acts, Except.ok ()) →
    ∃ w, s.participant_list.get? (r % s.participant_list.length) = some w ∧
      s1 = { s with winner_list := s.winner_list.set s.winners (some w)
                    winners := s.winners + 1 } ∧
      (s.winners + 1 = RAFFLE_WINNERS →
        acts = [Act.transfer s.pot_receiver s.total_balance,
                Act.emit (Event.RaffleWinner (some w) (r % s.participant_list.length))]) ∧
      (s.winners + 1 ≠ RAFFLE_WINNERS →
        acts = [Act.emit (Event.RaffleWinner (some w) (r % s.participant_list.length))]) := by
  intro h
  unfold Raffle.draw_winner at h
  split at h
  · simp_all
  · split at h
    · simp_all
    · split at h
      · simp_all
      · simp_all
      · rename_i cacts hcd
        split at h
        · simp_all
        · rename_i wi hri
          split at h
          · simp_all
          · rename_i w hw
            have hwi : wi = r % s.participant_list.length := by
              unfold Raffle.get_random_index at hri
              split at hri
              · simp_all
              · simp_all
            have hcacts : cacts = [] := by
              unfold Raffle.countdown_ongoing at hcd
              split at hcd
              · simp_all
              · dsimp only at hcd
                split at hcd <;> simp_all
            subst hwi
            subst hcacts
            refine ⟨w, hw, ?_⟩
            dsimp only at h
            split at h
            · rename_i hfin
              split at h
              · simp_all
              · rename_i htp
                unfold Raffle.transfer_pot at h htp
                simp only [Option.some.injEq, Prod.mk.injEq] at h
                obtain ⟨hs1, hacts, -⟩ := h
                constructor
                · exact hs1.symm
                · constructor
                  · intro _
                    simp [← hacts, Raffle.transfer_pot]
                  · intro hne
                    exact absurd hfin hne
            · rename_i hfin
              simp only [Option.some.injEq, Prod.mk.injEq] at h
              obtain ⟨hs1, hacts, -⟩ := h
              constructor
              · exact hs1.symm
              · constructor
                · intro hc
                  exact absurd hc hfin
                · intro _
                  simp [← hacts]

/-- C3 witness: the completing draw from s6 realizes the amended statement at
a concrete input. -/
theorem C3_draw_success_witness :
    s6.draw_winner 15 1 true =
      some (s7, [Act.transfer 0 50000000000000,
                 Act.emit (Event.RaffleWinner (some 2) 1)], Except.ok ()) ∧
    ∃ w, s6.participant_list.get? (1 % s6.participant_list.length) = some w ∧
      s7 = { s6 with winner_list := s6.winner_list.set s6.winners (some w)
                     winners := s6.winners + 1 } ∧
      (s6.winners + 1 = RAFFLE_WINNERS →
        [Act.transfer 0 50000000000000, Act.emit (Event.RaffleWinner (some 2) 1)] =
          [Act.transfer s6.pot_receiver s6.total_balance,
           Act.emit (Event.RaffleWinner (some w) (1 % s6.participant_list.length))]) ∧
      (s6.winners + 1 ≠ RAFFLE_WINNERS →
        [Act.transfer 0 50000000000000, Act.emit (Event.RaffleWinner (some 2) 1)] =
          [Act.emit (Event.RaffleWinner (some w) (1 % s6.participant_list.length))]) :=
  ⟨rfl, C3_draw_success s6 15 1 true s7
    [Act.transfer 0 50000000000000, Act.emit (Event.RaffleWinner (some 2) 1)] rfl⟩

/-- C4: the code emits RaffleOpen with the elapsed time, not the remaining
time.  On the reachable state s5 (start_time 10), a draw at timestamp 12
fails RaffleStillOpen and emits RaffleOpen 2, where 2 is the elapsed
time_diff; the time remaining until the draw is enabled is
DURATION_IN_MS - 2 = 3, which differs. -/
theorem C4_raffleopen_payload :
    runTrace (Raffle.new 0) trace5 = some (s5, hist5) ∧
    s5.draw_winner 12 0 true =
      some (s5, [Act.emit (Event.RaffleOpen 2)], Except.error Error.RaffleStillOpen) ∧
    12 - s5.start_time = 2 ∧
    DURATION_IN_MS - (12 - s5.start_time) = 3 ∧
    (2 : Nat) ≠ 3 :=
  ⟨rfl, rfl, rfl, rfl, by decide⟩

/-- C6: participate checks the deposit limits, then the finished flag, then
membership, in that order, each returning its error with the state unchanged;
on success it appends the participant, adds the deposit, emits
NewParticipant(participant, value), and when the list length reaches
RAFFLE_TRIGGER it sets enough_participants and captures start_time = now. -/
theorem C6_participate_order (s : Raffle) (p : AccountId) (v now : Nat) :
    ((v < DEPOSIT_MIN ∨ DEPOSIT_MAX < v) →
      s.participate p v now = some (s, [], Except.error Error.EndowmentOutOfLimits)) ∧
    (DEPOSIT_MIN ≤ v → v ≤ DEPOSIT_MAX → s.winners = RAFFLE_WINNERS →
      s.participate p v now = some (s, [], Except.error Error.RaffleFinished)) ∧
    (DEPOSIT_MIN ≤ v → v ≤ DEPOSIT_MAX → s.winners ≠ RAFFLE_WINNERS →
      s.is_participating p = true →
      s.participate p v now = some (s, [], Except.error Error.AlreadyParticipating)) ∧
    (DEPOSIT_MIN ≤ v → v ≤ DEPOSIT_MAX → s.winners ≠ RAFFLE_WINNERS →
      s.is_participating p = false → s.total_balance + v < U128_MOD →
      s.participate p v now =
        some ((if s.participant_list.length + 1 = RAFFLE_TRIGGER then
                { s with participant_list := s.participant_list ++ [p]
                         total_balance := s.total_balance + v
                         enough_participants := true
                         start_time := now }
               else
                { s with participant_list := s.participant_list ++ [p]
                         total_balance := s.total_balance + v }),
              [Act.emit (Event.NewParticipant (some p) v)], Except.ok ())) := by
  refine ⟨?_, ?_, ?_, ?_⟩
  · intro h
    have hc : v < DEPOSIT_MIN ∨ v > DEPOSIT_MAX := h
    unfold Raffle.participate
    simp [hc]
  · intro h1 h2 h3
    have hc : ¬ (v < DEPOSIT_MIN ∨ v > DEPOSIT_MAX) := by omega
    unfold Raffle.participate
    simp [hc, h3]
  · intro h1 h2 h3 h4
    have hc : ¬ (v < DEPOSIT_MIN ∨ v > DEPOSIT_MAX) := by omega
    unfold Raffle.participate
    simp [hc, h3, h4]
  · intro h1 h2 h3 h4 h5
    have hc : ¬ (v < DEPOSIT_MIN ∨ v > DEPOSIT_MAX) := by omega
    unfold Raffle.participate
    simp [hc, h3, h4, h5]

/-- C6 witness: each branch realized at a concrete input: a zero deposit, an
in-limits deposit on the finished state s7, a repeated participant on s5, and
a fresh registration on a new raffle. -/
theorem C6_participate_order_witness :
    (Raffle.new 0).participate 1 0 0 =
      some (Raffle.new 0, [], Except.error Error.EndowmentOutOfLimits) ∧
    s7.participate 9 DEPOSIT_MIN 0 =
      some (s7, [], Except.error Error.RaffleFinished) ∧
    s5.participate 1 DEPOSIT_MIN 0 =
      some (s5, [], Except.error Error.AlreadyParticipating) ∧
    (Raffle.new 0).participate 1 DEPOSIT_MIN 3 =
      some ((if (Raffle.new 0).participant_list.length + 1 = RAFFLE_TRIGGER then
              { Raffle.new 0 with
                  participant_list := (Raffle.new 0).participant_list ++ [1]
                  total_balance := (Raffle.new 0).total_balance + DEPOSIT_MIN
                  enough_participants := true
                  start_time := 3 }
             else
              { Raffle.new 0 with
                  participant_list := (Raffle.new 0).participant_list ++ [1]
                  total_balance := (Raffle.new 0).total_balance + DEPOSIT_MIN }),
            [Act.emit (Event.NewParticipant (some 1) DEPOSIT_MIN)], Except.ok ()) :=
  ⟨(C6_participate_order (Raffle.new 0) 1 0 0).1 (Or.inl (by decide)),
   (C6_participate_order s7 9 DEPOSIT_MIN 0).2.1 (by decide) (by decide) rfl,
   (C6_participate_order s5 1 DEPOSIT_MIN 0).2.2.1 (by decide) (by decide)
     (by decide) rfl,
   (C6_participate_order (Raffle.new 0) 1 DEPOSIT_MIN 3).2.2.2 (by decide)
     (by decide) (by decide) rfl (by decide)⟩

/-- C7: draw_winner checks its guards in order: a finished raffle fails
RaffleFinished, a raffle without enough participants fails TooFewParticpants,
an ongoing countdown fails RaffleStillOpen; each failure returns the state
unchanged, so the winners data is unchanged. -/
theorem C7_draw_guard_order (s : Raffle) (now r : Nat) (tok : Bool) :
    (s.winners = RAFFLE_WINNERS →
      s.draw_winner now r tok = some (s, [], Except.error Error.RaffleFinished)) ∧
    (s.winners ≠ RAFFLE_WINNERS → s.enough_participants = false →
      s.draw_winner now r tok = some (s, [], Except.error Error.TooFewParticpants)) ∧
    (s.winners ≠ RAFFLE_WINNERS → s.enough_participants = true →
      s.start_time ≤ now → now - s.start_time < DURATION_IN_MS →
      s.draw_winner now r tok =
        some (s, [Act.emit (Event.RaffleOpen (now - s.start_time))],
              Except.error Error.RaffleStillOpen)) := by
  refine ⟨?_, ?_, ?_⟩
  · intro h
    unfold Raffle.draw_winner
    simp [h]
  · intro h1 h2
    unfold Raffle.draw_winner
    simp [h1, h2]
  · intro h1 h2 h3 h4
    unfold Raffle.draw_winner Raffle.countdown_ongoing
    simp [h1, h2, Nat.not_lt.mpr h3, h4]

/-- C7 witness: the three guard failures realized at concrete inputs: the
finished state s7, a fresh raffle, and the armed state s5 before the
countdown has elapsed. -/
theorem C7_draw_guard_order_witness :
    s7.draw_winner 0 0 true = some (s7, [], Except.error Error.RaffleFinished) ∧
    (Raffle.new 0).draw_winner 0 0 true =
      some (Raffle.new 0, [], Except.error Error.TooFewParticpants) ∧
    s5.draw_winner 12 3 false =
      some (s5, [Act.emit (Event.RaffleOpen (12 - s5.start_time))],
            Except.error Error.RaffleStillOpen) :=
  ⟨(C7_draw_guard_order s7 0 0 true).1 rfl,
   (C7_draw_guard_order (Raffle.new 0) 0 0 true).2.1 (by decide) rfl,
   (C7_draw_guard_order s5 12 3 false).2.2 (by decide) rfl (by decide) (by decide)⟩

theorem acceptedDeposits_nil (hs : List (List Act × Except Error Unit)) :
    acceptedDeposits [] hs = 0 := rfl

theorem acceptedDeposits_cons (c : Call) (h : List Act × Except Error Unit)
    (cs : List Call) (hs : List (List Act × Except Error Unit)) :
    acceptedDeposits (c :: cs) (h :: hs) = depositOf (c, h) + acceptedDeposits cs hs := by
  simp [acceptedDeposits, List.zip_cons_cons]

theorem okDraws_nil (hs : List (List Act × Except Error Unit)) :
    okDraws [] hs = 0 := rfl

theorem okDraws_cons (c : Call) (h : List Act × Except Error Unit)
    (cs : List Call) (hs : List (List Act × Except Error Unit)) :
    okDraws (c :: cs) (h :: hs) = (if isOkDraw (c, h) then 1 else 0) + okDraws cs hs := by
  simp [okDraws, List.zip_cons_cons, List.countP_cons]
  omega

theorem trErrSteps_cons (h : List Act × Except Error Unit)
    (hs : List (List Act × Except Error Unit)) :
    trErrSteps (h :: hs) = (if isTrErr h then 1 else 0) + trErrSteps hs := by
  simp [trErrSteps, List.countP_cons]
  omega

theorem actionsOf_cons (a : List Act × Except Error Unit)
    (hs : List (List Act × Except Error Unit)) :
    actionsOf (a :: hs) = a.1 ++ actionsOf hs := by
  simp [actionsOf]

theorem transfersOf_append (l1 l2 : List Act) :
    transfersOf (l1 ++ l2) = transfersOf l1 ++ transfersOf l2 := by
  simp [transfersOf, List.filterMap_append]

/-- The countdown helper only ever emits events (never a transfer), and when
it reports the countdown over it emits nothing. -/
theorem countdown_acts {s : Raffle} {now : Nat} {b : Bool} {a : List Act}
    (h : s.countdown_ongoing now = some (b, a)) :
    transfersOf a = [] ∧ (b = false → a = []) := by
  unfold Raffle.countdown_ongoing at h
  split at h
  · simp_all
  · dsimp only at h
    split at h
    · simp only [Option.some.injEq, Prod.mk.injEq] at h
      obtain ⟨hb, ha⟩ := h
      subst hb
      subst ha
      exact ⟨rfl, by simp⟩
    · simp only [Option.some.injEq, Prod.mk.injEq] at h
      obtain ⟨hb, ha⟩ := h
      subst hb
      subst ha
      exact ⟨rfl, fun _ => rfl⟩

/-- Once the raffle is finished, every call fails with a non-TransferError
error, changes nothing, and emits nothing. -/
theorem step_of_finished {s : Raffle} {c : Call} {s1 : Raffle} {acts : List Act}
    {res : Except Error Unit} (hw : s.winners = RAFFLE_WINNERS)
    (h : stepCall s c = some (s1, acts, res)) :
    s1 = s ∧ acts = [] ∧ ∃ e, res = Except.error e ∧ e ≠ Error.TransferError := by
  cases c with
  | participate p v now =>
    simp only [stepCall] at h
    unfold Raffle.participate at h
    rw [if_pos hw] at h
    split at h
    · exact ⟨by simp_all, by simp_all, Error.EndowmentOutOfLimits, by simp_all, by simp⟩
    · exact ⟨by simp_all, by simp_all, Error.RaffleFinished, by simp_all, by simp⟩
  | draw now r tok =>
    simp only [stepCall] at h
    unfold Raffle.draw_winner at h
    rw [if_pos hw] at h
    exact ⟨by simp_all, by simp_all, Error.RaffleFinished, by simp_all, by simp⟩

/-- Effect of one call on the state: the pot receiver is constant, the
balance grows by exactly the accepted deposit, winners advances by one
exactly on a successful draw or a TransferError draw, a transfer is invoked
exactly when winners reaches RAFFLE_WINNERS in this call, the participant
list either stays or gains one fresh member, and enough_participants can
only become true when the list length is exactly RAFFLE_TRIGGER. -/
theorem step_delta {s : Raffle} {c : Call} {s1 : Raffle} {acts : List Act}
    {res : Except Error Unit} (h : stepCall s c = some (s1, acts, res)) :
    s1.pot_receiver = s.pot_receiver ∧
    s1.total_balance = s.total_balance + depositOf (c, (acts, res)) ∧
    s1.winners = s.winners + (if isOkDraw (c, (acts, res)) then 1 else 0)
               + (if isTrErr (acts, res) then 1 else 0) ∧
    (s1.winners = s.winners ∨ s1.winners = s.winners + 1) ∧
    transfersOf acts =
      (if s1.winners = RAFFLE_WINNERS ∧ ¬ s.winners = RAFFLE_WINNERS then
        [(s.pot_receiver, s1.total_balance)] else []) ∧
    (s1.participant_list = s.participant_list ∨
      ∃ q, s1.participant_list = s.participant_list ++ [q] ∧
        s.is_participating q = false) ∧
    (s1.enough_participants = true →
      s.enough_participants = true ∨ s1.participant_list.length = RAFFLE_TRIGGER) := by
  cases c with
  | participate p v now =>
    simp only [stepCall] at h
    unfold Raffle.participate at h
    split at h
    · simp only [Option.some.injEq, Prod.mk.injEq] at h
      obtain ⟨hs, hacts, hres⟩ := h
      subst hs hacts hres
      exact ⟨rfl, by simp [depositOf], by simp [isOkDraw, isTrErr], Or.inl rfl,
             by simp [transfersOf], Or.inl rfl, fun hh => Or.inl hh⟩
    · split at h
      · simp only [Option.some.injEq, Prod.mk.injEq] at h
        obtain ⟨hs, hacts, hres⟩ := h
        subst hs hacts hres
        exact ⟨rfl, by simp [depositOf], by simp [isOkDraw, isTrErr], Or.inl rfl,
               by simp [transfersOf], Or.inl rfl, fun hh => Or.inl hh⟩
      · split at h
        · simp only [Option.some.injEq, Prod.mk.injEq] at h
          obtain ⟨hs, hacts, hres⟩ := h
          subst hs hacts hres
          exact ⟨rfl, by simp [depositOf], by simp [isOkDraw, isTrErr], Or.inl rfl,
                 by simp [transfersOf], Or.inl rfl, fun hh => Or.inl hh⟩
        · rename_i hnp
          split at h
          · rename_i hov
            dsimp only at h
            simp only [Option.some.injEq, Prod.mk.injEq] at h
            obtain ⟨hs, hacts, hres⟩ := h
            subst hacts hres
            by_cases htr : (s.participant_list ++ [p]).length = RAFFLE_TRIGGER
            · rw [if_pos htr] at hs
              subst hs
              refine ⟨rfl, by simp [depositOf], by simp [isOkDraw, isTrErr], Or.inl rfl,
                      by simp [transfersOf], Or.inr ⟨p, rfl, by simpa using hnp⟩,
                      fun _ => Or.inr htr⟩
            · rw [if_neg htr] at hs
              subst hs
              refine ⟨rfl, by simp [depositOf], by simp [isOkDraw, isTrErr], Or.inl rfl,
                      by simp [transfersOf], Or.inr ⟨p, rfl, by simpa using hnp⟩,
                      fun hh => Or.inl hh⟩
          · exact Option.noConfusion h
  | draw now r tok =>
    simp only [stepCall] at h
    unfold Raffle.draw_winner at h
    split at h
    · simp only [Option.some.injEq, Prod.mk.injEq] at h
      obtain ⟨hs, hacts, hres⟩ := h
      subst hs hacts hres
      exact ⟨rfl, by simp [depositOf], by simp [isOkDraw, isTrErr], Or.inl rfl,
             by simp [transfersOf], Or.inl rfl, fun hh => Or.inl hh⟩
    · split at h
      · simp only [Option.some.injEq, Prod.mk.injEq] at h
        obtain ⟨hs, hacts, hres⟩ := h
        subst hs hacts hres
        exact ⟨rfl, by simp [depositOf], by simp [isOkDraw, isTrErr], Or.inl rfl,
               by simp [transfersOf], Or.inl rfl, fun hh => Or.inl hh⟩
      · split at h
        · exact Option.noConfusion h
        · rename_i cacts hcd
          simp only [Option.some.injEq, Prod.mk.injEq] at h
          obtain ⟨hs, hacts, hres⟩ := h
          subst hs hacts hres
          exact ⟨rfl, by simp [depositOf], by simp [isOkDraw, isTrErr], Or.inl rfl,
                 by rw [(countdown_acts hcd).1]; simp, Or.inl rfl,
                 fun hh => Or.inl hh⟩
        · rename_i cacts hcd
          have hc0 : cacts = [] := (countdown_acts hcd).2 rfl
          subst hc0
          split at h
          · exact Option.noConfusion h
          · rename_i wi hri
            split at h
            · exact Option.noConfusion h
            · rename_i w hw
              dsimp only at h
              split at h
              · rename_i hfin
                split at h
                · rename_i htok
                  simp only [Option.some.injEq, Prod.mk.injEq] at h
                  obtain ⟨hs, hacts, hres⟩ := h
                  subst hs hacts hres
                  have hsw : ¬ s.winners = RAFFLE_WINNERS := by omega
                  exact ⟨rfl, by simp [depositOf], by simp [isOkDraw, isTrErr], Or.inr rfl,
                         by simp [transfersOf, Raffle.transfer_pot, hfin, hsw],
                         Or.inl rfl, fun hh => Or.inl hh⟩
                · rename_i htok
                  simp only [Option.some.injEq, Prod.mk.injEq] at h
                  obtain ⟨hs, hacts, hres⟩ := h
                  subst hs hacts hres
                  have hsw : ¬ s.winners = RAFFLE_WINNERS := by omega
                  exact ⟨rfl, by simp [depositOf], by simp [isOkDraw, isTrErr], Or.inr rfl,
                         by simp [transfersOf, Raffle.transfer_pot, hfin, hsw],
                         Or.inl rfl, fun hh => Or.inl hh⟩
              · rename_i hfin
                simp only [Option.some.injEq, Prod.mk.injEq] at h
                obtain ⟨hs, hacts, hres⟩ := h
                subst hs hacts hres
                exact ⟨rfl, by simp [depositOf], by simp [isOkDraw, isTrErr], Or.inr rfl,
                       by simp [transfersOf, hfin], Or.inl rfl, fun hh => Or.inl hh⟩

/-- Running a trace from a reachable state lands in a reachable state. -/
theorem runTrace_reachable : ∀ (tr : List Call) (s s1 : Raffle)
    (hist : List (List Act × Except Error Unit)),
    Reachable s → runTrace s tr = some (s1, hist) → Reachable s1 := by
  intro tr
  induction tr with
  | nil =>
    intro s s1 hist hr h
    simp only [runTrace, Option.some.injEq, Prod.mk.injEq] at h
    obtain ⟨hs, -⟩ := h
    exact hs ▸ hr
  | cons c cs ih =>
    intro s s1 hist hr h
    simp only [runTrace] at h
    split at h
    · exact Option.noConfusion h
    · rename_i s2 acts res hstep
      split at h
      · exact Option.noConfusion h
      · rename_i sf hist2 hrec
        simp only [Option.some.injEq, Prod.mk.injEq] at h
        obtain ⟨hs, -⟩ := h
        exact hs ▸ ih s2 sf hist2 (Reachable.step hr hstep) hrec

/-- Cumulative effect of a trace: the pot receiver is constant, the balance
grows by exactly the accepted deposits, winners advances by the number of
successful draws plus the number of TransferError draws, winners is
monotone, exactly one transfer of the final balance is invoked when the
trace crosses into the finished state, and a finished state is frozen. -/
theorem runTrace_main : ∀ (tr : List Call) (s s1 : Raffle)
    (hist : List (List Act × Except Error Unit)),
    runTrace s tr = some (s1, hist) →
    s1.pot_receiver = s.pot_receiver ∧
    s1.total_balance = s.total_balance + acceptedDeposits tr hist ∧
    s1.winners = s.winners + okDraws tr hist + trErrSteps hist ∧
    s.winners ≤ s1.winners ∧
    transfersOf (actionsOf hist) =
      (if s1.winners = RAFFLE_WINNERS ∧ ¬ s.winners = RAFFLE_WINNERS then
        [(s.pot_receiver, s1.total_balance)] else []) ∧
    (s.winners = RAFFLE_WINNERS → s1 = s ∧ actionsOf hist = [] ∧
      acceptedDeposits tr hist = 0 ∧ okDraws tr hist = 0 ∧ trErrSteps hist = 0) := by
  intro tr
  induction tr with
  | nil =>
    intro s s1 hist h
    simp only [runTrace, Option.some.injEq, Prod.mk.injEq] at h
    obtain ⟨hs, hh⟩ := h
    subst hs
    subst hh
    refine ⟨rfl, rfl, rfl, Nat.le_refl _, by simp [actionsOf, transfersOf], ?_⟩
    intro _
    exact ⟨rfl, rfl, rfl, rfl, rfl⟩
  | cons c cs ih =>
    intro s s1 hist h
    simp only [runTrace] at h
    split at h
    · exact Option.noConfusion h
    · rename_i s2 acts res hstep
      split at h
      · exact Option.noConfusion h
      · rename_i sf hist2 hrec
        simp only [Option.some.injEq, Prod.mk.injEq] at h
        obtain ⟨hs, hh⟩ := h
        subst hh
        subst hs
        obtain ⟨dpot, dbal, dwin, dwor, dtrans, dlist, denough⟩ := step_delta hstep
        obtain ⟨ipot, ibal, iwin, iwle, itrans, ifreeze⟩ := ih s2 sf hist2 hrec
        have hpot : sf.pot_receiver = s.pot_receiver := ipot.trans dpot
        have hbal : sf.total_balance =
            s.total_balance + acceptedDeposits (c :: cs) ((acts, res) :: hist2) := by
          rw [acceptedDeposits_cons]
          omega
        have hwin : sf.winners =
            s.winners + okDraws (c :: cs) ((acts, res) :: hist2)
              + trErrSteps ((acts, res) :: hist2) := by
          rw [okDraws_cons, trErrSteps_cons]
          omega
        have hwle : s.winners ≤ sf.winners := by omega
        refine ⟨hpot, hbal, hwin, hwle, ?_, ?_⟩
        · rw [actionsOf_cons, transfersOf_append]
          by_cases hsw : s.winners = RAFFLE_WINNERS
          · obtain ⟨h2s, hae, -⟩ := step_of_finished hsw hstep
            obtain ⟨h1s, hact2, -, -, -⟩ := ifreeze (by rw [h2s]; exact hsw)
            rw [hae, hact2, h1s, h2s]
            simp [transfersOf, hsw]
          · by_cases h2w : s2.winners = RAFFLE_WINNERS
            · obtain ⟨h1s, hact2, -, -, -⟩ := ifreeze h2w
              rw [dtrans, if_pos ⟨h2w, hsw⟩, hact2, h1s]
              simp [transfersOf, h2w, hsw]
            · rw [dtrans, if_neg (by simp [h2w]), itrans, dpot]
              by_cases h1w : sf.winners = RAFFLE_WINNERS
              · rw [if_pos ⟨h1w, h2w⟩, if_pos ⟨h1w, hsw⟩]
                simp
              · rw [if_neg (by simp [h1w]), if_neg (by simp [h1w])]
                simp
        · intro hsw
          obtain ⟨h2s, hae, e, hres, hnet⟩ := step_of_finished hsw hstep
          obtain ⟨h1s, hact2, hacc2, hok2, hte2⟩ :=
            ifreeze (by rw [h2s]; exact hsw)
          subst hres
          refine ⟨h1s.trans h2s, by rw [actionsOf_cons, hact2, hae]; simp,
                  ?_, ?_, ?_⟩
          · rw [acceptedDeposits_cons, hacc2]
            cases c <;> simp [depositOf]
          · rw [okDraws_cons, hok2]
            cases c <;> simp [isOkDraw]
          · rw [trErrSteps_cons, hte2]
            have hfalse : isTrErr (acts, Except.error e) = false := by
              cases e <;> first
                | exact absurd rfl hnet
                | simp [isTrErr]
            rw [hfalse]
            simp

/-- State invariant of every reachable state: the participant list has no
duplicates, enough_participants implies at least RAFFLE_TRIGGER registered
participants, and winners never exceeds RAFFLE_WINNERS. -/
theorem reachable_inv {s : Raffle} (h : Reachable s) :
    s.participant_list.Nodup ∧
    (s.enough_participants = true → RAFFLE_TRIGGER ≤ s.participant_list.length) ∧
    s.winners ≤ RAFFLE_WINNERS := by
  induction h with
  | init pr =>
    exact ⟨List.nodup_nil, by simp [Raffle.new], by simp [Raffle.new]⟩
  | step hr hstep ih =>
    rename_i s c s1 acts res
    obtain ⟨inodup, ilen, iwin⟩ := ih
    obtain ⟨dpot, dbal, dwin, dwor, dtrans, dlist, denough⟩ := step_delta hstep
    refine ⟨?_, ?_, ?_⟩
    · rcases dlist with hsame | ⟨q, happ, hq⟩
      · rw [hsame]
        exact inodup
      · rw [happ]
        have hqmem : q ∉ s.participant_list := by
          intro hm
          have : s.is_participating q = true := by
            simp [Raffle.is_participating]
            exact hm
          rw [this] at hq
          exact Bool.noConfusion hq
        simp [List.nodup_append, inodup, hqmem]
    · intro he1
      rcases denough he1 with hen | hlen
      · have hlen5 := ilen hen
        rcases dlist with hsame | ⟨q, happ, -⟩
        · rw [hsame]
          exact hlen5
        · rw [happ]
          simp only [List.length_append, List.length_singleton]
          omega
      · omega
    · by_cases hsw : s.winners = RAFFLE_WINNERS
      · obtain ⟨h1s, -⟩ := step_of_finished hsw hstep
        rw [h1s]
        omega
      · rcases dwor with h1 | h1 <;> omega

/-- C8: every state reachable from the constructor by participate and
draw_winner calls has a duplicate-free participant list. -/
theorem C8_no_duplicate_participants (s : Raffle) (h : Reachable s) :
    s.participant_list.Nodup :=
  (reachable_inv h).1

/-- C8 witness: the reachable state s5 has a duplicate-free participant
list. -/
theorem C8_no_duplicate_participants_witness : s5.participant_list.Nodup :=
  C8_no_duplicate_participants s5
    (runTrace_reachable trace5 (Raffle.new 0) s5 hist5 (Reachable.init 0) trace5_run)

/-- C9: starting from the constructor, the balance of the state reached by
any trace equals the sum of the deposits accepted by its successful
participate calls, and no single call ever decreases the balance. -/
theorem C9_balance_accounting (pr : AccountId) (tr : List Call) (s : Raffle)
    (hist : List (List Act × Except Error Unit))
    (h : runTrace (Raffle.new pr) tr = some (s, hist)) :
    s.total_balance = acceptedDeposits tr hist ∧
    (∀ c s1 acts res, stepCall s c = some (s1, acts, res) →
      s.total_balance ≤ s1.total_balance) := by
  obtain ⟨-, hbal, -, -, -, -⟩ := runTrace_main tr (Raffle.new pr) s hist h
  constructor
  · rw [hbal]
    simp [Raffle.new]
  · intro c s1 acts res hstep
    obtain ⟨-, dbal, -⟩ := step_delta hstep
    omega

/-- C9 witness: the trace of five accepted deposits of DEPOSIT_MIN yields a
balance equal to the accepted-deposit sum. -/
theorem C9_balance_accounting_witness :
    runTrace (Raffle.new 0) trace5 = some (s5, hist5) ∧
    s5.total_balance = acceptedDeposits trace5 hist5 :=
  ⟨trace5_run, (C9_balance_accounting 0 trace5 s5 hist5 trace5_run).1⟩

/-- C10: in a reachable state with enough_participants set, the participant
list holds at least RAFFLE_TRIGGER entries, so it is non-empty, the random
index is strictly below the list length, and a draw_winner call whose guards
pass never trips the modulo-by-zero or unwrap panic: it returns a result. -/
theorem C10_draw_never_panics (s : Raffle) (h : Reachable s)
    (he : s.enough_participants = true) :
    RAFFLE_TRIGGER ≤ s.participant_list.length ∧
    s.participant_list.length ≠ 0 ∧
    (∀ r, r % s.participant_list.length < s.participant_list.length) ∧
    (∀ now r tok, s.winners ≠ RAFFLE_WINNERS → s.start_time ≤ now →
      DURATION_IN_MS ≤ now - s.start_time →
      (s.draw_winner now r tok).isSome = true) := by
  have hlen5 := (reachable_inv h).2.1 he
  have hlen0 : s.participant_list.length ≠ 0 := by
    simp [RAFFLE_TRIGGER] at hlen5
    omega
  refine ⟨hlen5, hlen0, fun r => Nat.mod_lt r (Nat.pos_of_ne_zero hlen0), ?_⟩
  intro now r tok hw hst hdur
  unfold Raffle.draw_winner
  rw [if_neg hw, if_neg (by simp [he])]
  have hcd : s.countdown_ongoing now = some (false, []) := by
    unfold Raffle.countdown_ongoing
    rw [if_neg (by omega)]
    dsimp only
    rw [if_neg (by omega)]
  rw [hcd]
  have hri : s.get_random_index r = some (r % s.participant_list.length) := by
    unfold Raffle.get_random_index
    rw [if_neg hlen0]
  rw [hri]
  dsimp only
  have hlt : r % s.participant_list.length < s.participant_list.length :=
    Nat.mod_lt r (Nat.pos_of_ne_zero hlen0)
  rcases List.get?_eq_get hlt with hget
  rw [hget]
  dsimp only
  split
  · split <;> simp
  · simp

/-- C10 witness: in the reachable armed state s5 a draw at timestamp 15 with
beacon value 7 returns a result instead of panicking. -/
theorem C10_draw_never_panics_witness :
    RAFFLE_TRIGGER ≤ s5.participant_list.length ∧
    (s5.draw_winner 15 7 true).isSome = true := by
  have h := C10_draw_never_panics s5
    (runTrace_reachable trace5 (Raffle.new 0) s5 hist5 (Reachable.init 0) trace5_run)
    rfl
  exact ⟨h.1, h.2.2.2 15 7 true (by decide) (by decide) (by decide)⟩

/-- C5 counterexample: after the completing trace trace7 (exactly
RAFFLE_WINNERS successful draws), a participate call with an out-of-limits
deposit fails with EndowmentOutOfLimits, not RaffleFinished, refuting the
claim that every further participate call fails with RaffleFinished. -/
theorem C5_finished_participate_cex :
    runTrace (Raffle.new 0) trace7 = some (s7, hist7) ∧
    okDraws trace7 hist7 = RAFFLE_WINNERS ∧
    s7.finished = true ∧
    s7.participate 6 0 99 = some (s7, [], Except.error Error.EndowmentOutOfLimits) ∧
    Error.EndowmentOutOfLimits ≠ Error.RaffleFinished :=
  ⟨rfl, rfl, rfl, rfl, by decide⟩

/-- C5 (amended): after a trace from the constructor containing exactly
RAFFLE_WINNERS successful draw_winner calls, finished() is true, the ledger
transfer was invoked exactly once, with the pot total accumulated at
completion; every further draw_winner call fails RaffleFinished, and every
further participate call whose deposit is within limits fails RaffleFinished
(one with an out-of-limits deposit fails EndowmentOutOfLimits instead). -/
theorem C5_completion (pr : AccountId) (tr : List Call) (s : Raffle)
    (hist : List (List Act × Except Error Unit))
    (h : runTrace (Raffle.new pr) tr = some (s, hist))
    (hok : okDraws tr hist = RAFFLE_WINNERS) :
    s.finished = true ∧
    transfersOf (actionsOf hist) = [(pr, s.total_balance)] ∧
    (∀ now r tok, s.draw_winner now r tok =
      some (s, [], Except.error Error.RaffleFinished)) ∧
    (∀ p v now, DEPOSIT_MIN ≤ v → v ≤ DEPOSIT_MAX →
      s.participate p v now = some (s, [], Except.error Error.RaffleFinished)) := by
  obtain ⟨hpot, hbal, hwin, hle, htrans, -⟩ := runTrace_main tr (Raffle.new pr) s hist h
  have hreach : Reachable s :=
    runTrace_reachable tr (Raffle.new pr) s hist (Reachable.init pr) h
  have hw2 : s.winners ≤ RAFFLE_WINNERS := (reachable_inv hreach).2.2
  have hwfin : s.winners = RAFFLE_WINNERS := by
    simp only [Raffle.new] at hwin
    omega
  refine ⟨by simp [Raffle.finished, hwfin], ?_, ?_, ?_⟩
  · rw [htrans, if_pos ⟨hwfin, by simp [Raffle.new, RAFFLE_WINNERS]⟩]
    simp [Raffle.new]
  · intro now r tok
    unfold Raffle.draw_winner
    simp [hwfin]
  · intro p v now h1 h2
    have hc : ¬ (v < DEPOSIT_MIN ∨ v > DEPOSIT_MAX) := by omega
    unfold Raffle.participate
    simp [hc, hwfin]

/-- C5 witness: the completing trace trace7 realizes the amended statement:
finished, exactly one transfer of the final pot, and RaffleFinished on a
further draw and a further in-limits participate. -/
theorem C5_completion_witness :
    runTrace (Raffle.new 0) trace7 = some (s7, hist7) ∧
    okDraws trace7 hist7 = RAFFLE_WINNERS ∧
    s7.finished = true ∧
    transfersOf (actionsOf hist7) = [(0, s7.total_balance)] ∧
    s7.draw_winner 20 0 true = some (s7, [], Except.error Error.RaffleFinished) ∧
    s7.participate 8 DEPOSIT_MIN 20 =
      some (s7, [], Except.error Error.RaffleFinished) := by
  have h := C5_completion 0 trace7 s7 hist7 trace7_run rfl
  exact ⟨trace7_run, rfl, h.1, h.2.1, h.2.2.1 20 0 true,
         h.2.2.2 8 DEPOSIT_MIN 20 (by decide) (by decide)⟩
